import Mathlib

/-!
Shallow embedding of the eth-af-backend wallet-portfolio service
(src/server.js, first revision "v9.0", and the revision in
src/unnamed/part_002 "v10.0"), together with proofs about the embedded
operations.

Conventions of the embedding:
* JavaScript strings are Lean `String`s; the JS string operations
  `toLowerCase`, `toUpperCase`, `startsWith`, `endsWith`, `includes` are
  modelled over the underlying `List Char`.
* JS numbers are modelled as `Rat` (exact arithmetic standing in for
  IEEE doubles; every comparison the claims rely on is exact in the
  source values used).
* Each outbound network call is an oracle parameter (`Option`-valued for
  calls that can fail or time out); a `Promise.race` against a timer that
  resolves to a default is modelled by `Option.getD`.
* The regular expressions of the spam classifier are translated pattern
  by pattern into decidable string predicates.
-/

/-- JS `String.prototype.toLowerCase`, restricted to the ASCII data the
service handles. -/
def jsToLower (s : String) : String := ⟨s.data.map Char.toLower⟩

/-- JS `String.prototype.toUpperCase`, restricted to ASCII. -/
def jsToUpper (s : String) : String := ⟨s.data.map Char.toUpper⟩

/-- JS `String.prototype.startsWith`. -/
def jsStartsWith (s pre : String) : Bool := pre.data.isPrefixOf s.data

/-- JS `String.prototype.endsWith`, via the reversed character lists. -/
def jsEndsWith (s suf : String) : Bool := suf.data.reverse.isPrefixOf s.data.reverse

/-- Occurrence of `sub` as a contiguous subsequence of `l`
(JS `String.prototype.includes` on the character level). -/
def containsSeq (sub : List Char) : List Char → Bool
  | [] => sub.isEmpty
  | c :: t => sub.isPrefixOf (c :: t) || containsSeq sub t

/-- JS `String.prototype.includes`. -/
def jsIncludes (s sub : String) : Bool := containsSeq sub.data s.data

/-- Does a position satisfying `p` exist in `l` (used to run an anchored
matcher at every position of a string, as an unanchored regex does)? -/
def anyPos (p : List Char → Bool) : List Char → Bool
  | [] => p []
  | c :: t => p (c :: t) || anyPos p t

/-- Consume a maximal run of decimal digits, returning its length and the
rest of the input. -/
def consumeDigits : List Char → Nat × List Char
  | [] => (0, [])
  | c :: t =>
    if c.isDigit then
      let r := consumeDigits t
      (r.1 + 1, r.2)
    else (0, c :: t)

/-- One fungible token holding as built by the chain token fetchers of
src/server.js (`balance` holds the value of `parseFloat` on the formatted
balance string). -/
structure Token where
  name : String
  symbol : String
  balance : Rat
  price : Rat
  usdValue : Rat
  isNative : Bool
  contractAddress : Option String
  chain : String
deriving Repr, DecidableEq

/-- Matcher for the regex `/^Visit.*\.com$/i` of `SPAM_PATTERNS.tokens`
(src/server.js line 124): the lowered string starts with "visit" and ends
with ".com"; for any string of length below 9 the two requirements collide
on a character, exactly as the regex demands. -/
def patVisitCom (s : String) : Bool :=
  jsStartsWith (jsToLower s) "visit" && jsEndsWith (jsToLower s) ".com"

/-- Matcher for `/^www\..*$/i` (src/server.js line 125). -/
def patWww (s : String) : Bool := jsStartsWith (jsToLower s) "www."

/-- Matcher for `/^https?:\/\//i` (src/server.js line 126). -/
def patHttp (s : String) : Bool :=
  jsStartsWith (jsToLower s) "http://" || jsStartsWith (jsToLower s) "https://"

/-- Anchored matcher for `/\$\d+\.?free/i` at one position: a dollar sign,
one or more digits, an optional dot, then "free".  The maximal digit run is
the only viable one because neither '.' nor 'f' is a digit. -/
def dollarFreeAt (l : List Char) : Bool :=
  match l with
  | '$' :: rest =>
    let r := consumeDigits rest
    if r.1 = 0 then false
    else
      "free".data.isPrefixOf r.2 ||
        (match r.2 with
         | '.' :: r2 => "free".data.isPrefixOf r2
         | _ => false)
  | _ => false

/-- Matcher for `/\$\d+\.?free/i` (src/server.js line 127). -/
def patDollarFree (s : String) : Bool := anyPos dollarFreeAt (jsToLower s).data

/-- Matcher for `/claim.*bonus/i` (src/server.js line 128): an occurrence
of "claim" followed, anywhere later, by "bonus". -/
def patClaimBonus (s : String) : Bool :=
  anyPos (fun l => "claim".data.isPrefixOf l && containsSeq "bonus".data (l.drop 5))
    (jsToLower s).data

/-- Matcher for `/airdrop/i` (src/server.js line 129). -/
def patAirdrop (s : String) : Bool := jsIncludes (jsToLower s) "airdrop"

/-- Matcher for `/^fake/i` (src/server.js line 130). -/
def patFake (s : String) : Bool := jsStartsWith (jsToLower s) "fake"

/-- Matcher for `/^test/i` (src/server.js line 131). -/
def patTestStart (s : String) : Bool := jsStartsWith (jsToLower s) "test"

/-- Matcher for `/zepe\.io/i` (src/server.js line 132). -/
def patZepe (s : String) : Bool := jsIncludes (jsToLower s) "zepe.io"

/-- Matcher for `/\.(com|io|org|net|xyz|tk)$/i` (src/server.js line 133). -/
def patTld (s : String) : Bool :=
  [".com", ".io", ".org", ".net", ".xyz", ".tk"].any
    (fun suf => jsEndsWith (jsToLower s) suf)

/-- Matcher for `/^ERC-20$/i` (src/server.js line 134). -/
def patErc20 (s : String) : Bool := jsToLower s == "erc-20"

/-- Matcher for `/^Token$/i` (src/server.js line 135). -/
def patTokenWord (s : String) : Bool := jsToLower s == "token"

/-- `SPAM_PATTERNS.tokens` of src/server.js lines 123-136, one decidable
predicate per regex, in source order. -/
def spamTokenPatterns : List (String → Bool) :=
  [patVisitCom, patWww, patHttp, patDollarFree, patClaimBonus, patAirdrop,
   patFake, patTestStart, patZepe, patTld, patErc20, patTokenWord]

/-- `isSpamToken` of src/server.js lines 148-168: pattern check on name and
symbol, then the length heuristics, then the zero-value "visit" check on
the combined lowered string.  There is no allow-list and no value-based
escape in this revision. -/
def isSpamToken (t : Token) : Bool :=
  if spamTokenPatterns.any (fun p => p t.name || p t.symbol) then true
  else if t.name.length > 50 then true
  else if t.symbol.length > 20 then true
  else if t.name == t.symbol && t.name.length == 40 then true
  else if t.usdValue == 0 && jsIncludes (jsToLower (t.name ++ " " ++ t.symbol)) "visit"
    then true
  else false

/-- `LEGITIMATE_TOKENS` of src/unnamed/part_002 lines 89-97: the maintained
allow-list of known-legitimate symbols. -/
def LEGITIMATE_TOKENS : List String :=
  ["ETH", "WETH", "USDC", "USDT", "DAI", "WBTC", "LINK", "UNI", "AAVE",
   "MKR", "SNX", "CRV", "SUSHI", "YFI", "COMP", "BAL", "MATIC", "BNB",
   "AVAX", "FTM", "OP", "ARB", "PEPE", "SHIB", "DOGE", "APE", "SAND",
   "MANA", "AXS", "GALA", "ENJ", "CHZ", "BLUR", "LDO", "RPL", "FXS",
   "FRAX", "GRT", "ENS", "BAT", "ZRX", "1INCH", "BUSD", "TUSD", "USDP",
   "RAI", "LUSD", "MIM", "CVX", "CRO", "QNT", "RNDR", "IMX", "LRC",
   "OCEAN", "AGIX", "FET", "GNO", "RDNT", "GMX", "GNS", "PENDLE"]

/-- The decimal digits, for the character class `[a-fA-F0-9]`. -/
def decDigitChars : List Char :=
  ['0', '1', '2', '3', '4', '5', '6', '7', '8', '9']

/-- The lowercase hex letters of `[a-fA-F0-9]`. -/
def hexLowerChars : List Char := ['a', 'b', 'c', 'd', 'e', 'f']

/-- The uppercase hex letters of `[a-fA-F0-9]`. -/
def hexUpperChars : List Char := ['A', 'B', 'C', 'D', 'E', 'F']

/-- The character class `[a-fA-F0-9]` as an explicit character list. -/
def hexChars : List Char := decDigitChars ++ hexLowerChars ++ hexUpperChars

/-- Matcher for `/^0x[a-fA-F0-9]{40}$/` (src/unnamed/part_002 line 124):
a name that is exactly a raw Ethereum address. -/
def isRawAddress (s : String) : Bool :=
  s.data.length == 42 && jsStartsWith s "0x" &&
    (s.data.drop 2).all (fun c => hexChars.contains c)

/-- `isLikelySpamToken` of src/unnamed/part_002 lines 99-129: allow-list
first, then the usdValue > 0.01 escape, then three conservative name
checks. -/
def isLikelySpamToken (t : Token) : Bool :=
  if LEGITIMATE_TOKENS.contains (jsToUpper t.symbol) then false
  else if t.usdValue > 1/100 then false
  else
    let tokenName := jsToLower t.name
    if jsStartsWith tokenName "visit " && jsIncludes tokenName ".com" then true
    else if jsStartsWith tokenName "www." || jsStartsWith tokenName "http://" ||
        jsStartsWith tokenName "https://" then true
    else if isRawAddress t.name && t.usdValue == 0 then true
    else false

example : isSpamToken
    { name := "Visit free-airdrop.com", symbol := "USDC", balance := 0,
      price := 0, usdValue := 0, isNative := false, contractAddress := none,
      chain := "ethereum" } = true := by decide

example : isLikelySpamToken
    { name := "Visit free-airdrop.com", symbol := "USDC", balance := 0,
      price := 0, usdValue := 0, isNative := false, contractAddress := none,
      chain := "ethereum" } = false := by decide

example : isSpamToken
    { name := "USD Coin", symbol := "USDC", balance := 10,
      price := 0, usdValue := 0, isNative := false, contractAddress := none,
      chain := "ethereum" } = false := by decide

/-- One owned NFT, as built by `fetchNFTsFast` (src/server.js lines
506-513). -/
structure NFTItem where
  name : String
  tokenId : String
  image : String
  hasImage : Bool
deriving Repr, DecidableEq

/-- One NFT collection, as grouped by `fetchNFTsFast` (src/server.js lines
484-493). -/
structure NFTCollection where
  name : String
  address : String
  nfts : List NFTItem
  floorPrice : Rat
  totalValue : Rat
deriving Repr, DecidableEq

/-- `SPAM_PATTERNS.nfts` of src/server.js lines 137-145: `/^ENS: /i`,
`/^Lens Protocol/i`, `/^OpenSea Shared/i`, `/claim/i`, `/free mint/i`,
`/test/i`, `/sample/i`, each as a decidable predicate in source order. -/
def spamNFTPatterns : List (String → Bool) :=
  [fun s => jsStartsWith (jsToLower s) "ens: ",
   fun s => jsStartsWith (jsToLower s) "lens protocol",
   fun s => jsStartsWith (jsToLower s) "opensea shared",
   fun s => jsIncludes (jsToLower s) "claim",
   fun s => jsIncludes (jsToLower s) "free mint",
   fun s => jsIncludes (jsToLower s) "test",
   fun s => jsIncludes (jsToLower s) "sample"]

/-- `isSpamNFT` of src/server.js lines 170-177: true iff the collection
name matches one of the NFT spam patterns.  Floor price and item count are
not consulted. -/
def isSpamNFT (c : NFTCollection) : Bool :=
  spamNFTPatterns.any (fun p => p c.name)

/-- The case-sensitive allow-list of known collection name fragments used
by the `validCollections` filter (src/server.js lines 558-568). -/
def nftAllowNames : List String :=
  ["ENS", "Lens", "POAP", "Uniswap", "CryptoPunks", "Bored Ape", "Azuki",
   "Doodles", "Moonbirds"]

/-- The `validCollections` filter of `fetchNFTsFast` (src/server.js lines
552-571): keep a collection if it has a nonzero floor price, or at least 5
items, or an allow-listed name fragment, or failing all that, at least one
item with an image. -/
def keepCollection (c : NFTCollection) : Bool :=
  if c.floorPrice > 0 then true
  else if c.nfts.length ≥ 5 then true
  else if nftAllowNames.any (fun frag => jsIncludes c.name frag) then true
  else c.nfts.any (fun n => n.hasImage)

/-- A fetched collection appears in the final `PortfolioResult.nfts` iff it
passes the `validCollections` filter inside `fetchNFTsFast` and then the
`!isSpamNFT` filter of the endpoint (src/server.js line 289). -/
def nftSurvives (c : NFTCollection) : Bool :=
  keepCollection c && !isSpamNFT c

example : nftSurvives
    { name := "Test Apes", address := "0xa",
      nfts := [{ name := "#1", tokenId := "1", image := "x", hasImage := true }],
      floorPrice := 5, totalValue := 5 } = false := by decide

example : nftSurvives
    { name := "My Art", address := "0xb",
      nfts := [{ name := "#1", tokenId := "1", image := "", hasImage := false }],
      floorPrice := 0, totalValue := 0 } = false := by decide

example : nftSurvives
    { name := "Doodles", address := "0xc",
      nfts := [{ name := "#1", tokenId := "1", image := "", hasImage := false }],
      floorPrice := 0, totalValue := 0 } = true := by decide

/-- The CoinGecko reply used by `fetchPricesQuick` (src/server.js lines
642-647), after the `|| default` fallbacks have been applied: each field is
`res.data.<id>?.usd || <default>`, so the stored values are the ones the
price pass actually uses. -/
structure GeckoPrices where
  eth : Rat
  matic : Rat
  bnb : Rat
  avax : Rat
deriving Repr, DecidableEq

/-- The lookup `prices[token.symbol]` on the object of src/server.js lines
642-647. -/
def nativeLookup (p : GeckoPrices) (sym : String) : Option Rat :=
  if sym = "ETH" then some p.eth
  else if sym = "MATIC" then some p.matic
  else if sym = "BNB" then some p.bnb
  else if sym = "AVAX" then some p.avax
  else none

/-- The stablecoin set of src/server.js line 657. -/
def STABLECOINS : List String :=
  ["USDC", "USDT", "DAI", "BUSD", "TUSD", "USDD", "FRAX"]

/-- The per-token body of the success path of `fetchPricesQuick`
(src/server.js lines 650-667): the native-price update guarded by the
truthiness of `prices[token.symbol]`, then the stablecoin update, then the
WETH update, applied in source order to the same token. -/
def priceTokenQuick (p : GeckoPrices) (t : Token) : Token :=
  let t1 :=
    match nativeLookup p t.symbol with
    | some v =>
      if t.isNative && !(v == 0) then
        { t with price := v, usdValue := t.balance * v }
      else t
    | none => t
  let t2 :=
    if STABLECOINS.contains t1.symbol then
      { t1 with price := 1, usdValue := t1.balance }
    else t1
  if t2.symbol = "WETH" then
    { t2 with price := p.eth, usdValue := t2.balance * p.eth }
  else t2

/-- The outcome of the CoinGecko call raced against the 1-second pricing
budget in src/server.js lines 292-295: the call returned (and the
synchronous update loops ran before the response was built), the call threw
(the catch block of lines 668-676 ran), or the budget timer fired before
any update happened. -/
inductive PriceOutcome where
  | success (p : GeckoPrices)
  | failure
  | notRun
deriving Repr, DecidableEq

/-- `fetchPricesQuick` of src/server.js lines 631-677 as a pure map over
the token list, for each possible outcome of the market-data call.  On
failure only tokens with symbol "ETH" receive the hardcoded fallback price;
stablecoins are left untouched. -/
def fetchPricesQuick : PriceOutcome → List Token → List Token
  | .success p, ts => ts.map (priceTokenQuick p)
  | .failure, ts =>
    ts.map (fun t =>
      if t.symbol = "ETH" then
        { t with price := 2000, usdValue := t.balance * 2000 }
      else t)
  | .notRun, ts => ts

/-- The stablecoin set of src/unnamed/part_002 line 657. -/
def STABLECOINS2 : List String := ["USDC", "USDT", "DAI", "BUSD", "TUSD"]

/-- The per-token effect of `fetchPricesForTokens` (src/unnamed/part_002
lines 630-683).  `cg` is the CoinGecko outcome (`none` means the call
threw, keeping the initial defaults 2000 and 1; a returned `usd` of 0 also
falls back via `|| default`); `dex` is the DexScreener lookup by contract
address, returning the parsed `pairs[0].priceUsd` when the call produced
one.  The three passes of the source (native symbols, stablecoins, then
the DEX loop over tokens with `!t.price && t.contractAddress`) touch
disjoint fields per token and are applied in source order. -/
def priceToken2 (cg : Option (Rat × Rat)) (dex : String → Option Rat) (t : Token) :
    Token :=
  let ethPrice : Rat := match cg with
    | some pr => if pr.1 == 0 then 2000 else pr.1
    | none => 2000
  let maticPrice : Rat := match cg with
    | some pr => if pr.2 == 0 then 1 else pr.2
    | none => 1
  let t1 :=
    if t.symbol = "ETH" || t.symbol = "WETH" then
      { t with price := ethPrice, usdValue := t.balance * ethPrice }
    else if t.symbol = "MATIC" then
      { t with price := maticPrice, usdValue := t.balance * maticPrice }
    else t
  let t2 :=
    if STABLECOINS2.contains t1.symbol then
      { t1 with price := 1, usdValue := t1.balance }
    else t1
  if t2.price == 0 then
    match t2.contractAddress with
    | some ca =>
      match dex ca with
      | some pr => { t2 with price := pr, usdValue := t2.balance * pr }
      | none => t2
    | none => t2
  else t2

/-- `fetchPricesForTokens` of src/unnamed/part_002 lines 630-683 as a pure
map (each token's final state depends only on its own fields and the two
oracles). -/
def fetchPricesForTokens (cg : Option (Rat × Rat)) (dex : String → Option Rat)
    (ts : List Token) : List Token :=
  ts.map (priceToken2 cg dex)

/-- The comparator `(a, b) => (b.usdValue || 0) - (a.usdValue || 0)` of
src/server.js line 301 induces this total preorder: `a` may come before `b`
iff `a.usdValue ≥ b.usdValue`. -/
def usdDescRel (a b : Token) : Prop := b.usdValue ≤ a.usdValue

instance : DecidableRel usdDescRel :=
  fun a b => inferInstanceAs (Decidable (b.usdValue ≤ a.usdValue))

instance : IsTotal Token usdDescRel :=
  ⟨fun a b => le_total b.usdValue a.usdValue⟩

instance : IsTrans Token usdDescRel :=
  ⟨fun _ _ _ hab hbc => le_trans hbc hab⟩

/-- `allTokens.sort(...)` of src/server.js line 301.  JS `Array.prototype
.sort` is stable, and a stable sort under a total preorder has a unique
result, so insertion sort by the comparator's preorder is the exact
behaviour. -/
def sortByUsdDesc (ts : List Token) : List Token :=
  List.insertionSort usdDescRel ts

example :
    sortByUsdDesc
      [{ name := "A", symbol := "A", balance := 1, price := 0, usdValue := 0,
         isNative := false, contractAddress := none, chain := "ethereum" },
       { name := "B", symbol := "B", balance := 5, price := 0, usdValue := 0,
         isNative := false, contractAddress := none, chain := "ethereum" }]
    = [{ name := "A", symbol := "A", balance := 1, price := 0, usdValue := 0,
         isNative := false, contractAddress := none, chain := "ethereum" },
       { name := "B", symbol := "B", balance := 5, price := 0, usdValue := 0,
         isNative := false, contractAddress := none, chain := "ethereum" }] := by
  decide

/-- One entry of `response.data.result.tokenBalances` from the
`alchemy_getTokenBalances` call (src/server.js line 393). -/
structure RawBalance where
  contractAddress : String
  tokenBalance : String
deriving Repr, DecidableEq

/-- The `alchemy_getTokenMetadata` reply for one contract (src/server.js
line 414); `none` on the outer option models a failed call or a null
`result`, both of which drop the entry. -/
structure TokenMetadata where
  name : Option String
  symbol : Option String
  decimals : Option Nat
  logo : Option String
deriving Repr, DecidableEq

/-- JS `metadata.name || 'Unknown'`: the empty string is falsy. -/
def jsOrString (v : Option String) (dflt : String) : String :=
  match v with
  | some s => if s = "" then dflt else s
  | none => dflt

/-- JS `metadata.decimals || 18`: 0 is falsy. -/
def jsOrNat (v : Option Nat) (dflt : Nat) : Nat :=
  match v with
  | some n => if n = 0 then dflt else n
  | none => dflt

/-- Numeric value of one hex digit, `none` for a non-hex character
(code points: '0' is 48, 'a' is 97, 'A' is 65). -/
def hexDigitVal (c : Char) : Option Nat :=
  if c.isDigit then some (c.toNat - 48)
  else if hexLowerChars.contains c then some (c.toNat - 87)
  else if hexUpperChars.contains c then some (c.toNat - 55)
  else none

/-- Parse a `0x`-prefixed hex quantity (the `tokenBalance` strings handed
to `ethers.formatUnits`); `none` models the cases where `formatUnits`
throws, which the per-entry `catch` turns into a dropped entry. -/
def parseHexQuantity (s : String) : Option Nat :=
  if jsStartsWith s "0x" then
    (s.data.drop 2).foldl
      (fun acc c =>
        match acc, hexDigitVal c with
        | some n, some d => some (n * 16 + d)
        | _, _ => none)
      (some 0)
  else none

/-- The per-entry body of the metadata batch in `fetchChainTokensFast`
(src/server.js lines 403-437): fetch metadata, default the fields through
`||`, scale the raw balance by the decimals, drop the entry when the call
failed or the formatted balance is below 1e-9, otherwise build the token
with `price` and `usdValue` 0. -/
def tokenFromEntry (chainId : String) (meta : String → Option TokenMetadata)
    (e : RawBalance) : Option Token :=
  match meta e.contractAddress with
  | none => none
  | some m =>
    let decimals := jsOrNat m.decimals 18
    match parseHexQuantity e.tokenBalance with
    | none => none
    | some n =>
      let bal : Rat := (n : Rat) / (10 : Rat) ^ decimals
      if bal < 1 / 10 ^ 9 then none
      else
        some { name := jsOrString m.name "Unknown",
               symbol := jsOrString m.symbol "UNKNOWN",
               balance := bal, price := 0, usdValue := 0, isNative := false,
               contractAddress := some e.contractAddress, chain := chainId }

/-- The batch loop of src/server.js lines 399-442: process the selected
entries in chunks of `batchSize = 5`, concatenating the non-null results of
each chunk. -/
def processBatches (f : RawBalance → Option Token) (l : List RawBalance) :
    List Token :=
  match l with
  | [] => []
  | x :: xs => ((x :: xs).take 5).filterMap f ++ processBatches f ((x :: xs).drop 5)
termination_by l.length
decreasing_by simp; omega

/-- The ERC-20 half of `fetchChainTokensFast` (src/server.js lines
381-446): keep the entries whose `tokenBalance` is truthy and not `'0x0'`,
take the first 50 (`slice(0, 50)`, src/server.js line 396), then run the
metadata batches.  `entries = none` models a failed or timed-out
`alchemy_getTokenBalances` call, which degrades to no tokens. -/
def fetchErc20Tokens (chainId : String) (meta : String → Option TokenMetadata)
    (entries : Option (List RawBalance)) : List Token :=
  match entries with
  | none => []
  | some es =>
    let nonZero := es.filter (fun tb => tb.tokenBalance ≠ "" && tb.tokenBalance ≠ "0x0")
    processBatches (tokenFromEntry chainId meta) (nonZero.take 50)

/-- The native-balance half of `fetchChainTokensFast` (src/server.js lines
344-378): `none` models a timeout of the 1-second race, otherwise the
formatted balance is kept only above the 1e-6 dust threshold. -/
def fetchNativeToken (chainId nativeSymbol chainName : String)
    (nativeBal : Option Rat) : List Token :=
  match nativeBal with
  | none => []
  | some b =>
    if b > 1 / 10 ^ 6 then
      [{ name := if nativeSymbol = "ETH" then "ETH on " ++ chainName else nativeSymbol,
         symbol := nativeSymbol, balance := b, price := 0, usdValue := 0,
         isNative := true, contractAddress := none, chain := chainId }]
    else []

/-- `fetchChainTokensFast` of src/server.js lines 336-449: the native token
followed by the ERC-20 tokens. -/
def fetchChainTokensFast (chainId nativeSymbol chainName : String)
    (nativeBal : Option Rat) (entries : Option (List RawBalance))
    (meta : String → Option TokenMetadata) : List Token :=
  fetchNativeToken chainId nativeSymbol chainName nativeBal ++
    fetchErc20Tokens chainId meta entries

/-- One historical transaction as mapped by `fetchActivityFast`
(src/server.js lines 611-618). -/
structure ActivityRecord where
  hash : String
  fromAddr : String
  toAddr : String
  value : Rat
  timestamp : String
  method : String
deriving Repr, DecidableEq

/-- The result of one element of `chainPromises` (src/server.js lines
230-255): the chain id together with the token list after the 2-second race
(`tokens` is `[]` when the fetch lost the race or threw). -/
structure ChainOutcome where
  chain : String
  tokens : List Token
deriving Repr, DecidableEq

/-- The chain list of `CHAINS` (src/server.js lines 29-101), in object-key
order, which is the order `Object.entries` iterates. -/
def chainList : List String :=
  ["ethereum", "base", "polygon", "arbitrum", "optimism", "avalanche",
   "blast", "bsc", "linea", "zora"]

/-- Build the outcome of every chain's race: a `none` from `fetch` is a
timeout or error, degraded to the empty list by the
`Promise.race(..., resolve([]))` of src/server.js lines 239-242. -/
def runChains (chains : List String) (fetch : String → Option (List Token)) :
    List ChainOutcome :=
  chains.map (fun c => { chain := c, tokens := (fetch c).getD [] })

/-- The fan-in loop of src/server.js lines 279-286: for each chain result
with a non-empty token list, filter out spam tokens, append the survivors
to `allTokens` and record them under the chain's key in `tokensByChain`. -/
def processChainsStep (acc : List Token × List (String × List Token))
    (r : ChainOutcome) : List Token × List (String × List Token) :=
  if r.tokens.length > 0 then
    let valid := r.tokens.filter (fun t => !isSpamToken t)
    (acc.1 ++ valid, acc.2 ++ [(r.chain, valid)])
  else acc

/-- See `processChainsStep`: the whole `chainResults.forEach` loop. -/
def processChains (rs : List ChainOutcome) :
    List Token × List (String × List Token) :=
  rs.foldl processChainsStep ([], [])

/-- The JSON body of src/server.js lines 303-315. -/
structure PortfolioResult where
  address : String
  ensName : Option String
  totalValue : Rat
  tokens : List Token
  tokensByChain : List (String × List Token)
  nfts : List NFTCollection
  activity : List ActivityRecord
  tokenCount : Nat
  nftCount : Nat
  chainsWithBalance : List String
  responseTime : Nat
deriving Repr, DecidableEq

/-- The aggregation tail of the wallet endpoint (src/server.js lines
276-315): combine the chain outcomes, filter spam NFTs, run the pricing
pass, compute the total, sort, and assemble the body.  The token objects in
`tokensByChain` alias the ones in `allTokens` in the source, so the pricing
pass reaches them too; the alias is rendered by pricing each per-chain list
with the same outcome. -/
def buildResponse (address : String) (ensName : Option String)
    (chainResults : List ChainOutcome) (nfts : List NFTCollection)
    (activity : List ActivityRecord) (po : PriceOutcome) (elapsed : Nat) :
    PortfolioResult :=
  let combined := processChains chainResults
  let validNFTs := nfts.filter (fun c => !isSpamNFT c)
  let priced := fetchPricesQuick po combined.1
  let totalValue := (priced.map (fun t => t.usdValue)).sum
  let sorted := sortByUsdDesc priced
  { address := address, ensName := ensName, totalValue := totalValue,
    tokens := sorted,
    tokensByChain := combined.2.map (fun p => (p.1, fetchPricesQuick po p.2)),
    nfts := validNFTs, activity := activity,
    tokenCount := sorted.length,
    nftCount := (validNFTs.map (fun c => c.nfts.length)).sum,
    chainsWithBalance := combined.2.map (fun p => p.1),
    responseTime := elapsed }

/-- One entry of the NodeCache response cache (src/server.js line 13,
`stdTTL: 300`): key, stored body, absolute expiry in seconds. -/
structure CacheEntry where
  key : String
  val : PortfolioResult
  expiry : Nat
deriving Repr, DecidableEq

/-- `cache.get`: an entry whose TTL has lapsed is a miss (NodeCache evicts
lazily on read). -/
def cacheGet (st : List CacheEntry) (k : String) (now : Nat) :
    Option PortfolioResult :=
  match st.find? (fun e => e.key == k) with
  | some e => if now < e.expiry then some e.val else none
  | none => none

/-- `cache.set(key, data, 300)` (src/server.js line 318): the new entry
supersedes any previous entry under the same key. -/
def cacheSet (st : List CacheEntry) (k : String) (v : PortfolioResult)
    (now : Nat) : List CacheEntry :=
  { key := k, val := v, expiry := now + 300 } :: st.filter (fun e => e.key ≠ k)

/-- The two 400-class failures of the wallet endpoint (src/server.js lines
214-225): a failed or empty ENS resolution, and an input that fails
`ethers.isAddress`. -/
inductive ReqError where
  | ensResolutionFailed
  | invalidAddress
deriving Repr, DecidableEq

/-- `ethers.isAddress`, modelled as the hex-format check: `0x` followed by
40 hex digits.  (The library also verifies the EIP-55 checksum of
mixed-case inputs; the claims only use all-lowercase concrete addresses,
for which the format check is exact.) -/
def isAddressModel (s : String) : Bool :=
  s.data.length == 42 && jsStartsWith s "0x" &&
    (s.data.drop 2).all (fun c => hexChars.contains c)

/-- The oracle bundle of one request: every upstream the endpoint touches,
plus the number of upstream calls one full (cache-missing) pipeline issues
and the measured latency recorded in the body. -/
structure FetchEnv where
  resolveName : String → Option String
  chainFetch : String → String → Option (List Token)
  nftFetch : String → List NFTCollection
  activityFetch : String → List ActivityRecord
  priceOutcome : PriceOutcome
  upstreamCalls : Nat
  elapsed : Nat

/-- The wallet endpoint `GET /api/wallet/:addressOrEns` (src/server.js
lines 183-330): cache lookup keyed by the lowercased raw input, ENS
resolution for `.eth` inputs, address validation, the fan-out/fan-in
aggregation, and the cache write.  Returns the response, the new cache
state, and the number of upstream calls made. -/
def handleWallet (env : FetchEnv) (st : List CacheEntry) (now : Nat)
    (input : String) :
    Except ReqError PortfolioResult × List CacheEntry × Nat :=
  let key := "wallet_" ++ jsToLower input
  match cacheGet st key now with
  | some r => (.ok r, st, 0)
  | none =>
    let resolved : Except ReqError (String × Option String) :=
      if jsEndsWith (jsToLower input) ".eth" then
        match env.resolveName input with
        | some a => .ok (a, some input)
        | none => .error .ensResolutionFailed
      else .ok (input, none)
    match resolved with
    | .error e => (.error e, st, 0)
    | .ok (addr, ens) =>
      if isAddressModel addr then
        let r := buildResponse addr ens (runChains chainList (env.chainFetch addr))
          (env.nftFetch addr) (env.activityFetch addr) env.priceOutcome env.elapsed
        (.ok r, cacheSet st key r now, env.upstreamCalls)
      else (.error .invalidAddress, st, 0)

/-- A token whose symbol is on the allow-list while its name matches the
spam pattern `/^Visit.*\.com$/i` (and `/airdrop/i`), with zero value. -/
def tokVisitUSDC : Token :=
  { name := "Visit free-airdrop.com", symbol := "USDC", balance := 0,
    price := 0, usdValue := 0, isNative := false, contractAddress := none,
    chain := "ethereum" }

/-- A token with material USD value whose name matches the spam pattern
`/^Visit.*\.com$/i`. -/
def tokVisitValued : Token :=
  { name := "Visit scam.com", symbol := "SCAMX", balance := 5,
    price := 20, usdValue := 100, isNative := false, contractAddress := none,
    chain := "ethereum" }

/-- An ordinary USDC holding before the pricing pass. -/
def tokUSDCPlain : Token :=
  { name := "USD Coin", symbol := "USDC", balance := 100,
    price := 0, usdValue := 0, isNative := false,
    contractAddress := some "0xa0b86991c6218b36c1d19d4a2e9eb0ce3606eb48",
    chain := "ethereum" }

/-- A collection with a known nonzero floor price whose name matches the
NFT spam pattern `/test/i`. -/
def colTestApes : NFTCollection :=
  { name := "Test Apes", address := "0xaaa",
    nfts := [{ name := "#1", tokenId := "1", image := "https://x/1.png",
               hasImage := true }],
    floorPrice := 5, totalValue := 5 }

/-- A benign small collection: no floor price, one item, no image, and a
name matching no promotional pattern and no allow-list fragment. -/
def colMyArt : NFTCollection :=
  { name := "My Art", address := "0xbbb",
    nfts := [{ name := "#1", tokenId := "1", image := "", hasImage := false }],
    floorPrice := 0, totalValue := 0 }

/-- Two tokens with equal `usdValue` and different raw balances, for the
tie-breaking analysis of the final sort. -/
def tokTieSmall : Token :=
  { name := "Alpha", symbol := "ALPHA", balance := 1, price := 0, usdValue := 0,
    isNative := false, contractAddress := none, chain := "ethereum" }

/-- See `tokTieSmall`: same `usdValue`, larger balance, listed second. -/
def tokTieBig : Token :=
  { name := "Beta", symbol := "BETA", balance := 5, price := 0, usdValue := 0,
    isNative := false, contractAddress := none, chain := "ethereum" }

/-- The canonical address of the end-to-end scenario, lowercased. -/
def sampleAddr : String := "0xd8da6bf26964af9d7eed9e03e53415d37aa96045"

/-- A concrete oracle bundle for evaluating the request handler: ENS
resolves only "vitalik.eth", the ethereum chain returns one token, the
base chain times out, every other chain returns no balances. -/
def sampleEnv : FetchEnv :=
  { resolveName := fun s => if s = "vitalik.eth" then some sampleAddr else none,
    chainFetch := fun _addr c =>
      if c = "ethereum" then some [tokUSDCPlain]
      else if c = "base" then none
      else some [],
    nftFetch := fun _ => [],
    activityFetch := fun _ => [],
    priceOutcome := .success { eth := 2500, matic := 1, bnb := 300, avax := 30 },
    upstreamCalls := 7,
    elapsed := 123 }

/-- Concrete CoinGecko prices for witnesses. -/
def sampleGecko : GeckoPrices := { eth := 2500, matic := 1, bnb := 300, avax := 30 }

/-- A single-chain outcome holding one plain USDC token. -/
def sampleOutcome : ChainOutcome := { chain := "ethereum", tokens := [tokUSDCPlain] }

/-- One concrete non-zero balance entry. -/
def sampleEntry : RawBalance :=
  { contractAddress := "0xa0b86991c6218b36c1d19d4a2e9eb0ce3606eb48",
    tokenBalance := "0x64" }

/-- The boolean `List.contains` used throughout the source translation
agrees with list membership. -/
theorem contains_eq_mem (l : List String) (s : String) :
    l.contains s = true ↔ s ∈ l :=
  List.elem_iff

/-- Claim C1, counterexample: `isSpamToken` of src/server.js has no
allow-list — the token with allow-listed symbol "USDC" (uppercased, it is
in `LEGITIMATE_TOKENS`) and zero value whose name matches a spam pattern
is classified as spam. -/
theorem isSpamToken_ignores_allowlist :
    isSpamToken tokVisitUSDC = true ∧
      jsToUpper tokVisitUSDC.symbol ∈ LEGITIMATE_TOKENS := by
  constructor
  · decide
  · decide

/-- Claim C1 (amended): it is the conservative classifier
`isLikelySpamToken` of src/unnamed/part_002 that gives allow-listed symbols
absolute precedence — for every token whose uppercased symbol is in
`LEGITIMATE_TOKENS` it returns false, whatever the name and `usdValue`. -/
theorem allowlist_precedence_isLikelySpamToken (t : Token)
    (h : jsToUpper t.symbol ∈ LEGITIMATE_TOKENS) :
    isLikelySpamToken t = false := by
  have hc : LEGITIMATE_TOKENS.contains (jsToUpper t.symbol) = true :=
    (contains_eq_mem _ _).mpr h
  simp only [isLikelySpamToken]
  rw [if_pos hc]

/-- Witness for `allowlist_precedence_isLikelySpamToken` at the token of
the counterexample: symbol "USDC", spam-pattern name, zero value. -/
theorem allowlist_precedence_isLikelySpamToken_witness :
    isLikelySpamToken tokVisitUSDC = false :=
  allowlist_precedence_isLikelySpamToken tokVisitUSDC (by decide)

/-- Claim C2, counterexample: `isSpamToken` of src/server.js has no
value-based escape — a token worth far more than the materiality threshold
is still classified as spam when its name matches a spam pattern. -/
theorem isSpamToken_ignores_value :
    isSpamToken tokVisitValued = true ∧
      (1 : Rat) / 100 < tokVisitValued.usdValue := by
  constructor
  · decide
  · show (1 : Rat) / 100 < 100
    norm_num

/-- Claim C2 (amended): the value rule with threshold $0.01 lives in
`isLikelySpamToken` of src/unnamed/part_002 — every token with
`usdValue > 0.01` is not spam there, whatever its name and symbol. -/
theorem value_precedence_isLikelySpamToken (t : Token)
    (h : t.usdValue > 1 / 100) :
    isLikelySpamToken t = false := by
  simp only [isLikelySpamToken]
  by_cases hc : LEGITIMATE_TOKENS.contains (jsToUpper t.symbol) = true
  · rw [if_pos hc]
  · rw [if_neg hc, if_pos h]

/-- Witness for `value_precedence_isLikelySpamToken` at the valued token of
the counterexample. -/
theorem value_precedence_isLikelySpamToken_witness :
    isLikelySpamToken tokVisitValued = false :=
  value_precedence_isLikelySpamToken tokVisitValued
    (by show (1 : Rat) / 100 < 100; norm_num)

/-- Claim C3, counterexample.  First half: a collection with a nonzero
floor price is still dropped from the `PortfolioResult`, because the
endpoint's `isSpamNFT` filter runs after the `validCollections` filter and
ignores floor price and item count (here the name matches `/test/i`).
Second half: a collection meeting none of the keep conditions is dropped
even though its name matches no promotional pattern (it merely has no item
with an image). -/
theorem nft_filters_counterexample :
    (0 < colTestApes.floorPrice ∧ nftSurvives colTestApes = false) ∧
      (isSpamNFT colMyArt = false ∧ colMyArt.floorPrice = 0 ∧
        colMyArt.nfts.length < 5 ∧
        nftAllowNames.all (fun frag => !jsIncludes colMyArt.name frag) = true ∧
        nftSurvives colMyArt = false) := by
  refine ⟨⟨?_, ?_⟩, ?_, ?_, ?_, ?_, ?_⟩
  · show (0 : Rat) < 5
    norm_num
  · decide
  · decide
  · decide
  · decide
  · decide
  · decide

/-- Claim C3 (amended): a fetched collection survives into the final
result iff it passes the `validCollections` keep-filter (nonzero floor
price, or at least 5 items, or an allow-listed name fragment, or at least
one item with an image) and additionally its name matches none of the NFT
spam patterns.  In particular a nonzero floor price alone does not protect
a collection from the pattern filter, and a small patternless collection
without images is dropped. -/
theorem nft_survival_characterization (c : NFTCollection) :
    nftSurvives c = true ↔
      ((0 < c.floorPrice ∨ 5 ≤ c.nfts.length ∨
        (∃ frag ∈ nftAllowNames, jsIncludes c.name frag = true) ∨
        (∃ n ∈ c.nfts, n.hasImage = true)) ∧ isSpamNFT c = false) := by
  unfold nftSurvives keepCollection
  split_ifs with h1 h2 h3 <;> simp_all [List.any_eq_true]
  intro _
  constructor
  · exact fun hx => Or.inr (Or.inr (Or.inr hx))
  · rintro (h | h | ⟨frag, hf, hj⟩ | h)
    · exact absurd h (not_lt.mpr h1)
    · omega
    · simp [h3 frag hf] at hj
    · exact h

/-- Claim C4, counterexample: when the CoinGecko call of
`fetchPricesQuick` (src/server.js) fails, the catch block prices only
tokens with symbol "ETH" — a USDC holding keeps price 0 instead of the
claimed 1.0, so the stablecoin short-circuit is not independent of the
market-data call there. -/
theorem fetchPricesQuick_failure_skips_stablecoins :
    (fetchPricesQuick .failure [tokUSDCPlain]).map (fun t => t.price) = [0] ∧
      tokUSDCPlain.symbol ∈ STABLECOINS := by
  constructor
  · decide
  · decide

/-- Claim C4 (amended): stablecoins get price exactly 1 and
`usdValue = balance`, with no dependence on any oracle, in the success
path of `fetchPricesQuick` (src/server.js) and unconditionally in
`fetchPricesForTokens` (src/unnamed/part_002); in the failure path of
`fetchPricesQuick` they stay unpriced. -/
theorem stablecoin_short_circuit (p : GeckoPrices) (cg : Option (Rat × Rat))
    (dex : String → Option Rat) (t : Token) (h : t.symbol ∈ STABLECOINS2) :
    ((priceTokenQuick p t).price = 1 ∧ (priceTokenQuick p t).usdValue = t.balance) ∧
      ((priceToken2 cg dex t).price = 1 ∧ (priceToken2 cg dex t).usdValue = t.balance) := by
  have hone : ((1 : Rat) == 0) = false := by decide
  have h5 : t.symbol = "USDC" ∨ t.symbol = "USDT" ∨ t.symbol = "DAI" ∨
      t.symbol = "BUSD" ∨ t.symbol = "TUSD" := by
    simpa [STABLECOINS2] using h
  rcases h5 with h5 | h5 | h5 | h5 | h5 <;>
    simp [priceTokenQuick, priceToken2, nativeLookup, h5, hone,
      STABLECOINS, STABLECOINS2, List.contains, List.elem]

/-- Witness for `stablecoin_short_circuit` at a concrete USDC holding with
both oracles failing. -/
theorem stablecoin_short_circuit_witness :
    ((priceTokenQuick { eth := 2500, matic := 1, bnb := 300, avax := 30 }
        tokUSDCPlain).price = 1 ∧
      (priceTokenQuick { eth := 2500, matic := 1, bnb := 300, avax := 30 }
        tokUSDCPlain).usdValue = tokUSDCPlain.balance) ∧
      ((priceToken2 none (fun _ => none) tokUSDCPlain).price = 1 ∧
        (priceToken2 none (fun _ => none) tokUSDCPlain).usdValue =
          tokUSDCPlain.balance) :=
  stablecoin_short_circuit _ _ _ tokUSDCPlain (by decide)

/-- Inserting a token that fails the filter predicate does not change the
filtered list. -/
theorem orderedInsert_filter_not (a : Token) (p : Token → Bool)
    (hpa : p a = false) :
    ∀ l, (List.orderedInsert usdDescRel a l).filter p = l.filter p := by
  intro l
  induction l with
  | nil => simp [List.orderedInsert, hpa]
  | cons b t ih =>
    by_cases hr : usdDescRel a b
    · simp [List.orderedInsert, hr, hpa]
    · simp [List.orderedInsert, hr, List.filter_cons, ih]

/-- Inserting a token into a descending-sorted list places it in front of
every other token of the same `usdValue`. -/
theorem orderedInsert_filter_eq (a : Token) (v : Rat) (hav : a.usdValue = v) :
    ∀ l, List.Sorted usdDescRel l →
      (List.orderedInsert usdDescRel a l).filter (fun t => t.usdValue == v) =
        a :: l.filter (fun t => t.usdValue == v) := by
  intro l
  induction l with
  | nil => intro _; simp [List.orderedInsert, hav]
  | cons b t ih =>
    intro hs
    by_cases hr : usdDescRel a b
    · simp [List.orderedInsert, hr, hav]
    · have hb : (b.usdValue == v) = false := by
        have hlt : v < b.usdValue := by
          rw [← hav]
          exact lt_of_not_le hr
        exact beq_eq_false_iff_ne.mpr (ne_of_gt hlt)
      simp [List.orderedInsert, hr, hb, List.filter_cons, ih hs.of_cons]

/-- The final sort keeps every group of equal-`usdValue` tokens in its
pre-sort relative order (the stable-sort behaviour of
`Array.prototype.sort`). -/
theorem sortByUsdDesc_stable (v : Rat) :
    ∀ l : List Token,
      (sortByUsdDesc l).filter (fun t => t.usdValue == v) =
        l.filter (fun t => t.usdValue == v) := by
  intro l
  induction l with
  | nil => rfl
  | cons a t ih =>
    show (List.orderedInsert usdDescRel a (List.insertionSort usdDescRel t)).filter _ = _
    by_cases hav : a.usdValue = v
    · rw [orderedInsert_filter_eq a v hav _ (List.sorted_insertionSort usdDescRel t)]
      simpa [List.filter_cons, hav] using congrArg (List.cons a) ih
    · have hpa : (a.usdValue == v) = false := beq_eq_false_iff_ne.mpr hav
      rw [orderedInsert_filter_not a _ hpa]
      simp only [List.filter_cons, hpa, if_false, Bool.false_eq_true]
      exact ih

/-- Claim C6, counterexample: the sort of src/server.js line 301 compares
only `usdValue`; two tokens tied at `usdValue = 0` stay in their original
order even though the earlier one has the smaller raw balance, so ties are
not broken by raw balance descending (which would put `tokTieBig`
first). -/
theorem sort_tie_counterexample :
    sortByUsdDesc [tokTieSmall, tokTieBig] = [tokTieSmall, tokTieBig] ∧
      tokTieSmall.usdValue = tokTieBig.usdValue ∧
      tokTieSmall.balance < tokTieBig.balance := by
  refine ⟨?_, ?_, ?_⟩ <;> decide

/-- Claim C6 (amended): the final token list is sorted descending by
`usdValue` and is a permutation of its input, and ties are broken
deterministically by keeping the pre-sort order (stable sort) — not by raw
balance. -/
theorem sort_spec (l : List Token) :
    List.Sorted usdDescRel (sortByUsdDesc l) ∧ (sortByUsdDesc l).Perm l ∧
      ∀ v : Rat,
        (sortByUsdDesc l).filter (fun t => t.usdValue == v) =
          l.filter (fun t => t.usdValue == v) :=
  ⟨List.sorted_insertionSort usdDescRel l, List.perm_insertionSort usdDescRel l,
    fun v => sortByUsdDesc_stable v l⟩

/-- Each update of the success path of `fetchPricesQuick` writes `price`
and `usdValue` together, so the invariant `usdValue = balance * price` is
preserved token by token. -/
theorem priceTokenQuick_inv (p : GeckoPrices) (t : Token)
    (h : t.usdValue = t.balance * t.price) :
    (priceTokenQuick p t).usdValue =
      (priceTokenQuick p t).balance * (priceTokenQuick p t).price := by
  unfold priceTokenQuick
  rcases hn : nativeLookup p t.symbol with _ | v <;>
    simp only [hn] <;> split_ifs <;> simp [h]

/-- The pricing pass preserves `usdValue = balance * price` under every
outcome of the market-data call. -/
theorem fetchPricesQuick_inv (po : PriceOutcome) (ts : List Token)
    (h : ∀ t ∈ ts, t.usdValue = t.balance * t.price) :
    ∀ t ∈ fetchPricesQuick po ts, t.usdValue = t.balance * t.price := by
  intro t ht
  cases po with
  | success p =>
    simp only [fetchPricesQuick, List.mem_map] at ht
    obtain ⟨t0, ht0, rfl⟩ := ht
    exact priceTokenQuick_inv p t0 (h t0 ht0)
  | failure =>
    simp only [fetchPricesQuick, List.mem_map] at ht
    obtain ⟨t0, ht0, rfl⟩ := ht
    by_cases hsym : t0.symbol = "ETH" <;> simp [hsym, h t0 ht0]
  | notRun => exact h t ht

/-- Every token accumulated by the fan-in loop comes from one of the chain
results. -/
theorem processChains_mem_aux (rs : List ChainOutcome) :
    ∀ (acc : List Token × List (String × List Token)) (t : Token),
      t ∈ (rs.foldl processChainsStep acc).1 →
        t ∈ acc.1 ∨ ∃ r ∈ rs, t ∈ r.tokens := by
  induction rs with
  | nil => intro acc t ht; exact Or.inl ht
  | cons r rs ih =>
    intro acc t ht
    rw [List.foldl_cons] at ht
    rcases ih (processChainsStep acc r) t ht with hacc | ⟨r2, hr2, htr2⟩
    · unfold processChainsStep at hacc
      split_ifs at hacc
      · rcases List.mem_append.mp hacc with hl | hval
        · exact Or.inl hl
        · exact Or.inr ⟨r, List.mem_cons_self r rs, (List.mem_filter.mp hval).1⟩
      · exact Or.inl hacc
    · exact Or.inr ⟨r2, List.mem_cons_of_mem r hr2, htr2⟩

/-- See `processChains_mem_aux`, instantiated at the empty accumulator. -/
theorem processChains_mem (rs : List ChainOutcome) (t : Token)
    (ht : t ∈ (processChains rs).1) : ∃ r ∈ rs, t ∈ r.tokens := by
  rcases processChains_mem_aux rs ([], []) t ht with h | h
  · cases h
  · exact h

/-- Claim C5: in every response built by the aggregation tail, each token
satisfies `usdValue = balance * price` (exactly, in the rational model),
and `totalValue` is the sum of `usdValue` over the surviving tokens at the
moment the body is assembled — whatever the outcome of the pricing race.
The hypothesis states what the chain fetchers guarantee: fetched tokens
start with `price = 0` and `usdValue = 0`. -/
theorem usd_invariant_and_total (address : String) (ens : Option String)
    (chainResults : List ChainOutcome) (nfts : List NFTCollection)
    (activity : List ActivityRecord) (po : PriceOutcome) (elapsed : Nat)
    (h : ∀ r ∈ chainResults, ∀ t ∈ r.tokens, t.price = 0 ∧ t.usdValue = 0) :
    (∀ t ∈ (buildResponse address ens chainResults nfts activity po elapsed).tokens,
        t.usdValue = t.balance * t.price) ∧
      (buildResponse address ens chainResults nfts activity po elapsed).totalValue =
        ((buildResponse address ens chainResults nfts activity po
            elapsed).tokens.map (fun t => t.usdValue)).sum := by
  have hperm :=
    List.perm_insertionSort usdDescRel
      (fetchPricesQuick po (processChains chainResults).1)
  have htok :
      (buildResponse address ens chainResults nfts activity po elapsed).tokens =
        sortByUsdDesc (fetchPricesQuick po (processChains chainResults).1) := rfl
  constructor
  · intro t ht
    rw [htok] at ht
    have hmem : t ∈ fetchPricesQuick po (processChains chainResults).1 :=
      hperm.mem_iff.mp ht
    refine fetchPricesQuick_inv po _ ?_ t hmem
    intro t0 ht0
    obtain ⟨r, hr, htr⟩ := processChains_mem chainResults t0 ht0
    obtain ⟨hp, hu⟩ := h r hr t0 htr
    rw [hu, hp, mul_zero]
  · have htot :
        (buildResponse address ens chainResults nfts activity po
            elapsed).totalValue =
          ((fetchPricesQuick po (processChains chainResults).1).map
            (fun t => t.usdValue)).sum := rfl
    rw [htot, htok]
    exact ((hperm.map (fun t => t.usdValue)).sum_eq).symm

/-- Witness for `usd_invariant_and_total` on a one-chain, one-token
scenario with a successful market-data call. -/
theorem usd_invariant_and_total_witness :
    (∀ t ∈ (buildResponse sampleAddr none [sampleOutcome] [] []
          (.success sampleGecko) 123).tokens,
        t.usdValue = t.balance * t.price) ∧
      (buildResponse sampleAddr none [sampleOutcome] [] []
          (.success sampleGecko) 123).totalValue =
        ((buildResponse sampleAddr none [sampleOutcome] [] []
            (.success sampleGecko) 123).tokens.map (fun t => t.usdValue)).sum :=
  usd_invariant_and_total sampleAddr none [sampleOutcome] [] []
    (.success sampleGecko) 123 (by decide)

/-- Replacing a failed chain fetch by a successful fetch of an empty list
changes nothing: the race already degrades the failure to `[]`. -/
theorem runChains_patch (chains : List String)
    (fetch : String → Option (List Token)) (X : String) (hX : fetch X = none) :
    runChains chains fetch =
      runChains chains (fun c => if c = X then some [] else fetch c) := by
  unfold runChains
  apply List.map_congr_left
  intro c _
  by_cases hc : c = X
  · subst hc
    simp [hX]
  · simp [hc]

/-- A chain whose outcomes are all empty never contributes a key to
`tokensByChain`. -/
theorem processChains_keys_aux (X : String) :
    ∀ (rs : List ChainOutcome) (acc : List Token × List (String × List Token)),
      (∀ r ∈ rs, r.chain = X → r.tokens = []) →
      X ∉ acc.2.map Prod.fst →
      X ∉ (rs.foldl processChainsStep acc).2.map Prod.fst := by
  intro rs
  induction rs with
  | nil => intro acc _ h2; exact h2
  | cons r rs ih =>
    intro acc h1 h2
    rw [List.foldl_cons]
    apply ih _ (fun r2 hr2 => h1 r2 (List.mem_cons_of_mem r hr2))
    unfold processChainsStep
    split_ifs with hlen
    · intro hmem
      dsimp only at hmem
      rw [List.map_append] at hmem
      rcases List.mem_append.mp hmem with h | h
      · exact h2 h
      · simp only [List.map_cons, List.map_nil, List.mem_singleton] at h
        have hempty := h1 r (List.mem_cons_self r rs) h.symm
        rw [hempty] at hlen
        simp at hlen
    · exact h2

/-- Claim C8: when one chain's fetch fails or times out, the request still
succeeds with the normal 200 path, the failed chain contributes exactly an
empty list (the response equals the one where that chain succeeded with no
tokens — all other chains, NFTs and activity unchanged), and
`chainsWithBalance` excludes the failed chain. -/
theorem chain_timeout_degrades (env : FetchEnv) (st : List CacheEntry)
    (now : Nat) (input X : String)
    (hmiss : cacheGet st ("wallet_" ++ jsToLower input) now = none)
    (hens : jsEndsWith (jsToLower input) ".eth" = false)
    (haddr : isAddressModel input = true)
    (hX : env.chainFetch input X = none) :
    ∃ r, handleWallet env st now input =
        (.ok r, cacheSet st ("wallet_" ++ jsToLower input) r now,
          env.upstreamCalls) ∧
      r = buildResponse input none
          (runChains chainList
            (fun c => if c = X then some [] else env.chainFetch input c))
          (env.nftFetch input) (env.activityFetch input) env.priceOutcome
          env.elapsed ∧
      X ∉ r.chainsWithBalance := by
  refine ⟨buildResponse input none (runChains chainList (env.chainFetch input))
    (env.nftFetch input) (env.activityFetch input) env.priceOutcome
    env.elapsed, ?_, ?_, ?_⟩
  · simp [handleWallet, hmiss, hens, haddr]
  · rw [runChains_patch chainList (env.chainFetch input) X hX]
  · have hcwb :
        (buildResponse input none (runChains chainList (env.chainFetch input))
            (env.nftFetch input) (env.activityFetch input) env.priceOutcome
            env.elapsed).chainsWithBalance =
          (processChains (runChains chainList
            (env.chainFetch input))).2.map Prod.fst := rfl
    rw [hcwb]
    refine processChains_keys_aux X _ ([], []) ?_ (by simp)
    intro r hr hchain
    simp only [runChains, List.mem_map] at hr
    obtain ⟨c, _, rfl⟩ := hr
    simp only at hchain ⊢
    rw [hchain, hX]
    rfl

/-- Witness for `chain_timeout_degrades`: in `sampleEnv` the base chain
times out while ethereum returns one token. -/
theorem chain_timeout_degrades_witness :
    ∃ r, handleWallet sampleEnv [] 0 sampleAddr =
        (.ok r, cacheSet [] ("wallet_" ++ jsToLower sampleAddr) r 0,
          sampleEnv.upstreamCalls) ∧
      r = buildResponse sampleAddr none
          (runChains chainList
            (fun c => if c = "base" then some []
              else sampleEnv.chainFetch sampleAddr c))
          (sampleEnv.nftFetch sampleAddr) (sampleEnv.activityFetch sampleAddr)
          sampleEnv.priceOutcome sampleEnv.elapsed ∧
      "base" ∉ r.chainsWithBalance :=
  chain_timeout_degrades sampleEnv [] 0 sampleAddr "base" rfl (by decide)
    (by decide) rfl

/-- A freshly written cache entry is returned unchanged by a lookup within
its TTL. -/
theorem cacheGet_cacheSet (st : List CacheEntry) (k : String)
    (v : PortfolioResult) (now now2 : Nat) (httl : now2 < now + 300) :
    cacheGet (cacheSet st k v now) k now2 = some v := by
  unfold cacheGet cacheSet
  rw [List.find?_cons_of_pos]
  · simp [httl]
  · simp

/-- Claim C7: a second request for the same input within the 300-second
response-cache TTL returns exactly the stored `PortfolioResult` of the
first request (all fields identical, the recorded `responseTime`
included) and performs zero upstream calls, for any oracle state `env2`
of the second request. -/
theorem cache_hit_within_ttl (env env2 : FetchEnv) (st : List CacheEntry)
    (now now2 : Nat) (input : String)
    (hmiss : cacheGet st ("wallet_" ++ jsToLower input) now = none)
    (hens : jsEndsWith (jsToLower input) ".eth" = false)
    (haddr : isAddressModel input = true)
    (httl : now2 < now + 300) :
    ∃ r st1, handleWallet env st now input = (.ok r, st1, env.upstreamCalls) ∧
      handleWallet env2 st1 now2 input = (.ok r, st1, 0) := by
  refine ⟨buildResponse input none (runChains chainList (env.chainFetch input))
      (env.nftFetch input) (env.activityFetch input) env.priceOutcome
      env.elapsed,
    cacheSet st ("wallet_" ++ jsToLower input)
      (buildResponse input none (runChains chainList (env.chainFetch input))
        (env.nftFetch input) (env.activityFetch input) env.priceOutcome
        env.elapsed) now, ?_, ?_⟩
  · simp [handleWallet, hmiss, hens, haddr]
  · have hget := cacheGet_cacheSet st ("wallet_" ++ jsToLower input)
      (buildResponse input none (runChains chainList (env.chainFetch input))
        (env.nftFetch input) (env.activityFetch input) env.priceOutcome
        env.elapsed) now now2 httl
    simp [handleWallet, hget]

/-- Witness for `cache_hit_within_ttl`: two requests for `sampleAddr` at
times 0 and 100 against `sampleEnv`. -/
theorem cache_hit_within_ttl_witness :
    ∃ r st1, handleWallet sampleEnv [] 0 sampleAddr =
        (.ok r, st1, sampleEnv.upstreamCalls) ∧
      handleWallet sampleEnv st1 100 sampleAddr = (.ok r, st1, 0) :=
  cache_hit_within_ttl sampleEnv sampleEnv [] 0 100 sampleAddr rfl
    (by decide) (by decide) (by decide)

/-- The chunked batch loop is extensionally the pointwise `filterMap`: the
chunking only bounds concurrency, it does not change which entries are
processed. -/
theorem processBatches_eq (f : RawBalance → Option Token) :
    ∀ l, processBatches f l = l.filterMap f := by
  have haux : ∀ n (l : List RawBalance), l.length ≤ n →
      processBatches f l = l.filterMap f := by
    intro n
    induction n with
    | zero =>
      intro l hl
      match l with
      | [] => simp [processBatches]
      | x :: xs => simp at hl
    | succ n ih =>
      intro l hl
      match l with
      | [] => simp [processBatches]
      | x :: xs =>
        rw [processBatches]
        have hlen : ((x :: xs).drop 5).length ≤ n := by
          rw [List.length_drop]
          simp only [List.length_cons]
          simp only [List.length_cons] at hl
          omega
        rw [ih _ hlen, ← List.filterMap_append, List.take_append_drop]
  exact fun l => haux l.length l le_rfl

/-- A token produced from a balance entry carries that entry's contract
address. -/
theorem tokenFromEntry_contract (chainId : String)
    (meta : String → Option TokenMetadata) (e : RawBalance) (t : Token)
    (h : tokenFromEntry chainId meta e = some t) :
    t.contractAddress = some e.contractAddress := by
  unfold tokenFromEntry at h
  split at h
  · cases h
  · split at h
    · cases h
    · dsimp only at h
      split_ifs at h
      cases h
      rfl

/-- Claim C9: per chain, the ERC-20 fetcher of src/server.js processes at
most the first 50 non-zero balance entries (`slice(0, 50)`): it returns at
most 50 tokens, and every returned token comes from one of those first 50
filtered entries — later non-zero entries are silently omitted. -/
theorem erc20_first_fifty (chainId : String)
    (meta : String → Option TokenMetadata) (es : List RawBalance) :
    (fetchErc20Tokens chainId meta (some es)).length ≤ 50 ∧
      ∀ t ∈ fetchErc20Tokens chainId meta (some es),
        ∃ e ∈ (es.filter
            (fun tb => tb.tokenBalance ≠ "" && tb.tokenBalance ≠ "0x0")).take 50,
          t.contractAddress = some e.contractAddress := by
  have heq : fetchErc20Tokens chainId meta (some es) =
      ((es.filter
          (fun tb => tb.tokenBalance ≠ "" && tb.tokenBalance ≠ "0x0")).take
        50).filterMap (tokenFromEntry chainId meta) := by
    unfold fetchErc20Tokens
    exact processBatches_eq _ _
  constructor
  · rw [heq]
    exact le_trans (List.length_filterMap_le _ _) (List.length_take_le _ _)
  · intro t ht
    rw [heq] at ht
    obtain ⟨e, he, hfe⟩ := List.mem_filterMap.mp ht
    exact ⟨e, he, tokenFromEntry_contract chainId meta e t hfe⟩

/-- Witness for `erc20_first_fifty` on a one-entry list with a metadata
provider that always fails. -/
theorem erc20_first_fifty_witness :
    (fetchErc20Tokens "ethereum" (fun _ => none) (some [sampleEntry])).length
        ≤ 50 ∧
      ∀ t ∈ fetchErc20Tokens "ethereum" (fun _ => none) (some [sampleEntry]),
        ∃ e ∈ ([sampleEntry].filter
            (fun tb => tb.tokenBalance ≠ "" && tb.tokenBalance ≠ "0x0")).take 50,
          t.contractAddress = some e.contractAddress :=
  erc20_first_fifty "ethereum" (fun _ => none) [sampleEntry]

/-- Lowercasing a hex digit never yields 'h', the final letter of
".eth". -/
theorem toLower_hex_ne_h (c : Char) (h : c ∈ hexChars) :
    ('h' == Char.toLower c) = false := by
  fin_cases h <;> decide

/-- A well-formed address (0x + 40 hex digits) never ends in ".eth", even
after lowercasing: its last character lowercases to a hex digit, not to
'h'. -/
theorem isAddressModel_not_eth (s : String) (h : isAddressModel s = true) :
    jsEndsWith (jsToLower s) ".eth" = false := by
  unfold isAddressModel at h
  simp only [Bool.and_eq_true, beq_iff_eq, List.all_eq_true] at h
  obtain ⟨⟨hlen, _⟩, hall⟩ := h
  have hdlen : (s.data.drop 2).length = 40 := by
    rw [List.length_drop, hlen]
  obtain ⟨c, t2, hct⟩ :=
    List.exists_cons_of_ne_nil (l := (s.data.drop 2).reverse) (by
      intro hnil
      have hz := congrArg List.length hnil
      rw [List.length_reverse, hdlen] at hz
      cases hz)
  have hcmem : c ∈ s.data.drop 2 :=
    List.mem_reverse.mp (by rw [hct]; exact List.mem_cons_self c t2)
  have hchex : c ∈ hexChars := List.elem_iff.mp (hall c hcmem)
  have hrev : (s.data.map Char.toLower).reverse =
      Char.toLower c ::
        (t2.map Char.toLower ++ (s.data.take 2).reverse.map Char.toLower) := by
    calc (s.data.map Char.toLower).reverse
        = s.data.reverse.map Char.toLower := (List.map_reverse _ _).symm
      _ = ((s.data.take 2 ++ s.data.drop 2).reverse).map Char.toLower := by
          rw [List.take_append_drop]
      _ = ((s.data.drop 2).reverse ++ (s.data.take 2).reverse).map
            Char.toLower := by rw [List.reverse_append]
      _ = ((c :: t2) ++ (s.data.take 2).reverse).map Char.toLower := by
          rw [hct]
      _ = Char.toLower c ::
            (t2.map Char.toLower ++ (s.data.take 2).reverse.map Char.toLower) := by
          simp
  show (".eth".data.reverse.isPrefixOf (jsToLower s).data.reverse) = false
  have hdata : (jsToLower s).data = s.data.map Char.toLower := rfl
  rw [hdata, hrev]
  have hsuffix : ".eth".data.reverse = ['h', 't', 'e', '.'] := rfl
  rw [hsuffix]
  simp [List.isPrefixOf, toLower_hex_ne_h c hchex]

/-- The response-cache keys of an ENS-name request and of the request for
its resolved address are distinct: the key is built from the raw input
before resolution. -/
theorem ens_address_keys_distinct (name addr : String)
    (hens : jsEndsWith (jsToLower name) ".eth" = true)
    (haddr : isAddressModel addr = true) :
    ("wallet_" ++ jsToLower name) ≠ ("wallet_" ++ jsToLower addr) := by
  intro heq
  have hd := congrArg String.data heq
  simp only [String.data_append] at hd
  have hl : jsToLower name = jsToLower addr :=
    String.ext (List.append_cancel_left hd)
  rw [hl, isAddressModel_not_eth addr haddr] at hens
  cases hens

/-- Claim C10: the cache key is derived from the lowercased raw input
before ENS resolution, so a request for an ENS name and one for its
resolved address use distinct keys; after the first request is cached the
second still misses (it performs a fresh full pipeline, `env.upstreamCalls`
upstream calls), and both responses describe the same wallet: both
`address` fields equal the resolved address (only `ensName` differs). -/
theorem ens_and_address_cached_separately (env : FetchEnv) (now now2 : Nat)
    (name addr : String)
    (hens : jsEndsWith (jsToLower name) ".eth" = true)
    (haddr : isAddressModel addr = true)
    (hres : env.resolveName name = some addr) :
    ("wallet_" ++ jsToLower name) ≠ ("wallet_" ++ jsToLower addr) ∧
      ∃ r1 st1 r2,
        handleWallet env [] now name = (.ok r1, st1, env.upstreamCalls) ∧
          handleWallet env st1 now2 addr =
            (.ok r2, cacheSet st1 ("wallet_" ++ jsToLower addr) r2 now2,
              env.upstreamCalls) ∧
          r1.address = addr ∧ r2.address = addr ∧
          r1.ensName = some name ∧ r2.ensName = none := by
  have hkey := ens_address_keys_distinct name addr hens haddr
  have hens2 : jsEndsWith (jsToLower addr) ".eth" = false :=
    isAddressModel_not_eth addr haddr
  refine ⟨hkey,
    buildResponse addr (some name) (runChains chainList (env.chainFetch addr))
      (env.nftFetch addr) (env.activityFetch addr) env.priceOutcome env.elapsed,
    cacheSet [] ("wallet_" ++ jsToLower name)
      (buildResponse addr (some name)
        (runChains chainList (env.chainFetch addr)) (env.nftFetch addr)
        (env.activityFetch addr) env.priceOutcome env.elapsed) now,
    buildResponse addr none (runChains chainList (env.chainFetch addr))
      (env.nftFetch addr) (env.activityFetch addr) env.priceOutcome env.elapsed,
    ?_, ?_, rfl, rfl, rfl, rfl⟩
  · simp [handleWallet, cacheGet, hens, hres, haddr]
  · have hget : cacheGet (cacheSet []
        ("wallet_" ++ jsToLower name)
        (buildResponse addr (some name)
          (runChains chainList (env.chainFetch addr)) (env.nftFetch addr)
          (env.activityFetch addr) env.priceOutcome env.elapsed) now)
        ("wallet_" ++ jsToLower addr) now2 = none := by
      unfold cacheGet cacheSet
      rw [List.find?_cons_of_neg]
      · rfl
      · simp only [beq_iff_eq]
        exact fun hcontr => hkey (by simpa using hcontr)
    simp [handleWallet, hget, hens2, haddr]

/-- Witness for `ens_and_address_cached_separately`: "vitalik.eth" and its
resolved address under `sampleEnv`. -/
theorem ens_and_address_cached_separately_witness :
    ("wallet_" ++ jsToLower "vitalik.eth") ≠ ("wallet_" ++ jsToLower sampleAddr) ∧
      ∃ r1 st1 r2,
        handleWallet sampleEnv [] 0 "vitalik.eth" =
            (.ok r1, st1, sampleEnv.upstreamCalls) ∧
          handleWallet sampleEnv st1 10 sampleAddr =
            (.ok r2, cacheSet st1 ("wallet_" ++ jsToLower sampleAddr) r2 10,
              sampleEnv.upstreamCalls) ∧
          r1.address = sampleAddr ∧ r2.address = sampleAddr ∧
          r1.ensName = some "vitalik.eth" ∧ r2.ensName = none :=
  ens_and_address_cached_separately sampleEnv 0 10 "vitalik.eth" sampleAddr
    (by decide) (by decide) rfl

/-- Witness for `nft_survival_characterization` at the benign small
collection. -/
theorem nft_survival_characterization_witness :
    nftSurvives colMyArt = true ↔
      ((0 < colMyArt.floorPrice ∨ 5 ≤ colMyArt.nfts.length ∨
        (∃ frag ∈ nftAllowNames, jsIncludes colMyArt.name frag = true) ∨
        (∃ n ∈ colMyArt.nfts, n.hasImage = true)) ∧ isSpamNFT colMyArt = false) :=
  nft_survival_characterization colMyArt

/-- Witness for `sort_spec` at the two tied tokens. -/
theorem sort_spec_witness :
    List.Sorted usdDescRel (sortByUsdDesc [tokTieSmall, tokTieBig]) ∧
      (sortByUsdDesc [tokTieSmall, tokTieBig]).Perm [tokTieSmall, tokTieBig] ∧
      ∀ v : Rat,
        (sortByUsdDesc [tokTieSmall, tokTieBig]).filter
            (fun t => t.usdValue == v) =
          [tokTieSmall, tokTieBig].filter (fun t => t.usdValue == v) :=
  sort_spec [tokTieSmall, tokTieBig]
